import Mathlib

/-!
Verification of the vTeam multi-tenant session control plane.

The Go sources operate on `unstructured.Unstructured` objects, i.e. dynamic
JSON-like values (`map[string]interface{}`).  We embed those values as the
mutually inductive types `GoVal` / `GoList` / `GoFields`.  Go maps are
unordered and `encoding/json` serializes map keys in sorted order; the
embedding represents objects as key-ordered association lists, so
serialization needs no re-sort.
-/

mutual

inductive GoVal where
  | null : GoVal
  | boolean : Bool → GoVal
  | num : Int → GoVal
  | str : String → GoVal
  | arr : GoList → GoVal
  | obj : GoFields → GoVal

inductive GoList where
  | nil : GoList
  | cons : GoVal → GoList → GoList

inductive GoFields where
  | nil : GoFields
  | cons : String → GoVal → GoFields → GoFields

end

mutual

def GoVal.beq : GoVal → GoVal → Bool
  | .null, .null => true
  | .boolean a, .boolean b => a == b
  | .num a, .num b => a == b
  | .str a, .str b => a == b
  | .arr a, .arr b => GoList.beq a b
  | .obj a, .obj b => GoFields.beq a b
  | _, _ => false

def GoList.beq : GoList → GoList → Bool
  | .nil, .nil => true
  | .cons x xs, .cons y ys => GoVal.beq x y && GoList.beq xs ys
  | _, _ => false

def GoFields.beq : GoFields → GoFields → Bool
  | .nil, .nil => true
  | .cons k v fs, .cons k' v' fs' => k == k' && GoVal.beq v v' && GoFields.beq fs fs'
  | _, _ => false

end

mutual

def GoVal.canonicalJson : GoVal → String
  | .null => "null"
  | .boolean b => cond b "true" "false"
  | .num n => toString n
  | .str s => "\"" ++ s ++ "\""
  | .arr xs => "[" ++ GoList.canonicalItems xs ++ "]"
  | .obj fs => "\x7b" ++ GoFields.canonicalItems fs ++ "\x7d"

def GoList.canonicalItems : GoList → String
  | .nil => ""
  | .cons x .nil => GoVal.canonicalJson x
  | .cons x (.cons y ys) =>
      GoVal.canonicalJson x ++ "," ++ GoList.canonicalItems (.cons y ys)

def GoFields.canonicalItems : GoFields → String
  | .nil => ""
  | .cons k v .nil => "\"" ++ k ++ "\":" ++ GoVal.canonicalJson v
  | .cons k v (.cons k' v' fs) =>
      "\"" ++ k ++ "\":" ++ GoVal.canonicalJson v ++ "," ++
        GoFields.canonicalItems (.cons k' v' fs)

end

/-- Conversion of a `GoList` to a standard list (used in statements). -/
def GoList.toList : GoList → List GoVal
  | .nil => []
  | .cons x xs => x :: xs.toList

/-- Conversion of a standard list to a `GoList` (used to build values). -/
def GoList.ofList : List GoVal → GoList
  | [] => .nil
  | x :: xs => .cons x (GoList.ofList xs)

/-- Length of a `GoList`, mirroring Go `len` on a slice. -/
def GoList.length : GoList → Nat
  | .nil => 0
  | .cons _ xs => xs.length + 1

/-- Field lookup in an association list, mirroring Go map indexing `m[k]`
(a missing key yields `nil`, modeled as `none`). -/
def GoFields.lookup : GoFields → String → Option GoVal
  | .nil, _ => none
  | .cons k v fs, key => if k = key then some v else fs.lookup key

/-- Field update in an association list, mirroring Go map assignment `m[k] = v`. -/
def GoFields.setKey : GoFields → String → GoVal → GoFields
  | .nil, key, v => .cons key v .nil
  | .cons k v' fs, key, v =>
      if k = key then .cons key v fs else .cons k v' (fs.setKey key v)

/-- Go type assertion `x.(map[string]interface\x7b\x7d)`: succeeds only on objects. -/
def GoVal.asObj : GoVal → Option GoFields
  | .obj fs => some fs
  | _ => none

/-- Go type assertion `x.([]interface\x7b\x7d)`: succeeds only on arrays. -/
def GoVal.asArr : GoVal → Option GoList
  | .arr xs => some xs
  | _ => none

/-- Go type assertion `x.(string)`: succeeds only on strings. -/
def GoVal.asStr : GoVal → Option String
  | .str s => some s
  | _ => none

/-- Go `m[k].(map[string]interface\x7b\x7d)` on an unstructured value:
field access followed by the map type assertion.  The result is kept as a
`GoVal` (always an `obj`) so that accesses chain. -/
def GoVal.getMap (v : GoVal) (k : String) : Option GoVal :=
  match v with
  | .obj fs =>
      match fs.lookup k with
      | some (.obj inner) => some (.obj inner)
      | _ => none
  | _ => none

/-- Go `m[k].([]interface\x7b\x7d)`: field access followed by the slice
type assertion, converted to a standard list for convenience. -/
def GoVal.getArr (v : GoVal) (k : String) : Option (List GoVal) :=
  match v with
  | .obj fs =>
      match fs.lookup k with
      | some (.arr xs) => some xs.toList
      | _ => none
  | _ => none

/-- Go `m[k].(string)`: field access followed by the string type assertion. -/
def GoVal.getStr (v : GoVal) (k : String) : Option String :=
  match v with
  | .obj fs =>
      match fs.lookup k with
      | some (.str s) => some s
      | _ => none
  | _ => none

/-- Go map assignment on an unstructured object value. -/
def GoVal.setField (v : GoVal) (k : String) (x : GoVal) : GoVal :=
  match v with
  | .obj fs => .obj (fs.setKey k x)
  | _ => v

/-- Convenience constructor for object literals. -/
def GoVal.mkObj : List (String × GoVal) → GoVal :=
  fun l => .obj (go l)
where
  go : List (String × GoVal) → GoFields
    | [] => .nil
    | (k, v) :: rest => .cons k v (go rest)

/-- `metadata.namespace` of an unstructured resource, mirroring
`session.GetNamespace()` (empty string when absent). -/
def GoVal.getNamespaceOf (v : GoVal) : String :=
  ((v.getMap "metadata").bind (fun m => m.getStr "namespace")).getD ""

/-- `metadata.name` of an unstructured resource, mirroring `session.GetName()`. -/
def GoVal.getNameOf (v : GoVal) : String :=
  ((v.getMap "metadata").bind (fun m => m.getStr "name")).getD ""

/-!
## Admission validator for Sessions
Embeds `components/operator/pkg/webhooks/session_validator.go`.
-/

/-- Outcome of an admission webhook handler (`admission.Response`):
`allowed`, `denied` with a message, or `errored` with an HTTP code. -/
inductive AdmissionResult where
  | allowed : AdmissionResult
  | denied : String → AdmissionResult
  | errored : Nat → AdmissionResult
deriving Repr, DecidableEq

/-- The registered runner framework types (`availableFrameworks` map). -/
def availableFrameworks (t : String) : Bool :=
  t == "claude-code" || t == "custom-python" || t == "bash-runner"

/-- `validateFrameworkType`: `spec.framework.type` must name a registered
runner framework. -/
def validateFrameworkType (session : GoVal) : Except String Unit :=
  match session.getMap "spec" with
  | none => .error "spec field is required"
  | some spec =>
      match spec.getMap "framework" with
      | none => .error "spec.framework field is required"
      | some framework =>
          match framework.getStr "type" with
          | none => .error "spec.framework.type field is required"
          | some frameworkType =>
              if availableFrameworks frameworkType then .ok ()
              else .error ("unsupported framework type '" ++ frameworkType ++ "'")

/-- Inner loop shared by the model and tool checks: each requested entry must
occur in the allowed list.  The Go loops compare entries with
`requested.(string) == allowed.(string)`; schema-valid objects hold only
strings there, so the comparison is modeled by `GoVal.beq`. -/
def requireAllIn (requested allowed : List GoVal) (what : String) : Except String Unit :=
  match requested with
  | [] => .ok ()
  | r :: rs =>
      if allowed.any (fun a => GoVal.beq r a) then requireAllIn rs allowed what
      else .error (what ++ " '" ++ (r.asStr.getD "") ++ "' is not allowed by namespace policy")

/-- Inner loop shared by the model and tool checks: no requested entry may
occur in the blocked list. -/
def requireNoneIn (requested blocked : List GoVal) (what : String) : Except String Unit :=
  match requested with
  | [] => .ok ()
  | r :: rs =>
      if blocked.any (fun b => GoVal.beq r b) then
        .error (what ++ " '" ++ (r.asStr.getD "") ++ "' is blocked by namespace policy")
      else requireNoneIn rs blocked what

/-- `validateFrameworkConstraints`: the session framework type must not be
blocked by, and must be listed by a present allowed list of, the policy
`frameworks` section. -/
def validateFrameworkConstraints (sessionSpec policySpec : GoVal) : Except String Unit :=
  match sessionSpec.getMap "framework" with
  | none => .ok ()
  | some framework =>
      let frameworkType := (framework.getStr "type").getD ""
      match policySpec.getMap "frameworks" with
      | none => .ok ()
      | some frameworks =>
          match
            (match frameworks.getArr "blocked" with
             | some blocked =>
                 if blocked.any (fun b => GoVal.beq b (.str frameworkType)) then
                   .error ("framework type '" ++ frameworkType ++ "' is blocked by namespace policy")
                 else .ok ()
             | none => .ok () : Except String Unit) with
          | .error e => .error e
          | .ok _ =>
              match frameworks.getArr "allowed" with
              | some allowed =>
                  if allowed.any (fun a => GoVal.beq a (.str frameworkType)) then .ok ()
                  else .error ("framework type '" ++ frameworkType ++ "' is not in allowed list")
              | none => .ok ()

/-- Allowed-list half of a policy section check: if the section carries an
`allowed` list, every requested entry must occur in it. -/
def checkAllowedSection (requested : List GoVal) (sec : GoVal) (what : String) :
    Except String Unit :=
  match sec.getArr "allowed" with
  | some allowedL => requireAllIn requested allowedL what
  | none => .ok ()

/-- Blocked-list half of a policy section check: if the section carries a
`blocked` list, no requested entry may occur in it. -/
def checkBlockedSection (requested : List GoVal) (sec : GoVal) (what : String) :
    Except String Unit :=
  match sec.getArr "blocked" with
  | some blockedL => requireNoneIn requested blockedL what
  | none => .ok ()

/-- Shared body of `validateModelConstraints` and `validateToolConstraints`
(the two Go functions are line-for-line identical up to the section name):
a missing policy section means no restrictions, otherwise the allowed check
runs before the blocked check. -/
def validateListConstraints (requested : List GoVal) (secOpt : Option GoVal)
    (what : String) : Except String Unit :=
  match secOpt with
  | none => .ok ()
  | some sec =>
      match checkAllowedSection requested sec what with
      | .error e => .error e
      | .ok _ => checkBlockedSection requested sec what

/-- `validateModelConstraints`: models requested in
`spec.policy.modelConstraints.allowed` must occur in a present
`policy.models.allowed` list and must not occur in `policy.models.blocked`. -/
def validateModelConstraints (sessionSpec policySpec : GoVal) : Except String Unit :=
  match sessionSpec.getMap "policy" with
  | none => .ok ()
  | some sessionPolicy =>
      match sessionPolicy.getMap "modelConstraints" with
      | none => .ok ()
      | some modelConstraints =>
          match modelConstraints.getArr "allowed" with
          | none => .ok ()
          | some requestedModels =>
              validateListConstraints requestedModels (policySpec.getMap "models") "model"

/-- `validateToolConstraints`: tools requested in
`spec.policy.toolConstraints.allowed` must occur in a present
`policy.tools.allowed` list and must not occur in `policy.tools.blocked`. -/
def validateToolConstraints (sessionSpec policySpec : GoVal) : Except String Unit :=
  match sessionSpec.getMap "policy" with
  | none => .ok ()
  | some sessionPolicy =>
      match sessionPolicy.getMap "toolConstraints" with
      | none => .ok ()
      | some toolConstraints =>
          match toolConstraints.getArr "allowed" with
          | none => .ok ()
          | some requestedTools =>
              validateListConstraints requestedTools (policySpec.getMap "tools") "tool"

/-- `validateSessionAgainstPolicy`: framework, model and tool checks in order.
A failed `spec` type assertion yields a Go nil map, on which every lookup
misses; `GoVal.null` models that. -/
def validateSessionAgainstPolicy (session policy : GoVal) : Except String Unit :=
  let sessionSpec := (session.getMap "spec").getD .null
  let policySpec := (policy.getMap "spec").getD .null
  match validateFrameworkConstraints sessionSpec policySpec with
  | .error e => .error e
  | .ok _ =>
      match validateModelConstraints sessionSpec policySpec with
      | .error e => .error e
      | .ok _ => validateToolConstraints sessionSpec policySpec

/-- Result of fetching the tenant NamespacePolicy named `policy` from the
declarative store (the dynamic-client `Get` call in Go). -/
inductive PolicyFetch where
  | found : GoVal → PolicyFetch
  | notFound : PolicyFetch
  | fetchError : PolicyFetch

/-- `validateAgainstNamespacePolicy`: requires a namespace, treats a missing
policy as unrestricted, and otherwise validates against the fetched policy. -/
def validateAgainstNamespacePolicy (session : GoVal) (pf : PolicyFetch) : Except String Unit :=
  if session.getNamespaceOf = "" then .error "namespace is required"
  else
    match pf with
    | .fetchError => .error "failed to get namespace policy"
    | .notFound => .ok ()
    | .found policy => validateSessionAgainstPolicy session policy

/-- `validateCreate`: framework type check then namespace-policy check. -/
def validateCreate (session : GoVal) (pf : PolicyFetch) : AdmissionResult :=
  match validateFrameworkType session with
  | .error e => .denied ("Invalid framework type: " ++ e)
  | .ok _ =>
      match validateAgainstNamespacePolicy session pf with
      | .error e => .denied ("Policy violation: " ++ e)
      | .ok _ => .allowed

/-- Loop body of `validateHistoryAppendOnly`: each old entry must be
byte-identical, as marshaled JSON, to the entry at the same index of the new
history. -/
def checkHistoryEntries : List GoVal → List GoVal → Nat → Except String Unit
  | [], _, _ => .ok ()
  | _ :: _, [], i => .error ("history entry " ++ toString i ++ " was removed")
  | o :: os, n :: ns, i =>
      if GoVal.canonicalJson o = GoVal.canonicalJson n then checkHistoryEntries os ns (i + 1)
      else .error ("history entry " ++ toString i ++ " was modified")

/-- `validateHistoryAppendOnly`: `status.history` may only grow and existing
entries may not change. -/
def validateHistoryAppendOnly (oldSession newSession : GoVal) : Except String Unit :=
  let newStatus := (newSession.getMap "status").getD .null
  match oldSession.getMap "status" with
  | none => .ok ()
  | some oldStatus =>
      match oldStatus.getArr "history" with
      | none => .ok ()
      | some oldHistory =>
          match newStatus.getArr "history" with
          | none => .error "history cannot be removed"
          | some newHistory =>
              if newHistory.length < oldHistory.length then
                .error ("history cannot be shortened (old: " ++ toString oldHistory.length ++
                  ", new: " ++ toString newHistory.length ++ ")")
              else checkHistoryEntries oldHistory newHistory 0

/-- `validateUpdate`: only the append-only history rule is checked; all other
updates are allowed. -/
def validateUpdate (oldSession newSession : GoVal) : AdmissionResult :=
  match validateHistoryAppendOnly oldSession newSession with
  | .error e => .denied ("History modification not allowed: " ++ e)
  | .ok _ => .allowed

/-- `SessionValidator.Handle`: decode the request object (`none` models a
decode failure, answered with HTTP 400), then dispatch on the operation;
operations other than CREATE and UPDATE are allowed without validation. -/
def sessionValidatorHandle (op : String) (decodedNew : Option GoVal)
    (decodedOld : Option GoVal) (pf : PolicyFetch) : AdmissionResult :=
  match decodedNew with
  | none => .errored 400
  | some session =>
      if op = "CREATE" then validateCreate session pf
      else if op = "UPDATE" then
        match decodedOld with
        | none => .errored 400
        | some oldSession => validateUpdate oldSession session
      else .allowed

/-!
## Session reconciler
Embeds the `SessionReconciler` of
`components/operator/pkg/workload/workload_creator.go` (lines 388-925 of the
combined file: `Reconcile`, `handlePending`, `handleRunning`,
`validatePolicy`, `validateBudget`, `validateModels`, `validateTools`,
`updatePhase`, `getPhase`).
-/

/-- `SessionReconciler.getPhase`: current phase with default `Pending` when
the status or the phase is missing or empty. -/
def getPhase (session : GoVal) : String :=
  match session.getMap "status" with
  | none => "Pending"
  | some status =>
      match status.getStr "phase" with
      | none => "Pending"
      | some p => if p = "" then "Pending" else p

/-- `SessionReconciler.validateBudget`: the Go body only logs the configured
budget and never rejects ("In a real implementation, we would ... 3. Reject
if would exceed.  For now, we just log"). -/
def reconcilerValidateBudget (sessionSpec policySpec : GoVal) : Except String Unit :=
  match policySpec.getMap "models" with
  | some models =>
      match models.getMap "budget" with
      | some _ => .ok ()
      | none => .ok ()
  | none => .ok ()

/-- Inner loop of the reconciler model and tool checks (wording of the error
message differs from the admission validator's). -/
def requireAllInPlain (requested allowed : List GoVal) (what : String) : Except String Unit :=
  match requested with
  | [] => .ok ()
  | r :: rs =>
      if allowed.any (fun a => GoVal.beq r a) then requireAllInPlain rs allowed what
      else .error (what ++ " " ++ (r.asStr.getD "") ++ " is not allowed by namespace policy")

/-- `SessionReconciler.validateModels`: requested models must occur in a
present `policy.models.allowed` list (no blocked check here). -/
def reconcilerValidateModels (sessionSpec policySpec : GoVal) : Except String Unit :=
  match sessionSpec.getMap "policy" with
  | none => .ok ()
  | some sessionPolicy =>
      match sessionPolicy.getMap "modelConstraints" with
      | none => .ok ()
      | some modelConstraints =>
          match modelConstraints.getArr "allowed" with
          | none => .ok ()
          | some requestedModels =>
              match policySpec.getMap "models" with
              | none => .ok ()
              | some models =>
                  match models.getArr "allowed" with
                  | none => .ok ()
                  | some allowed => requireAllInPlain requestedModels allowed "model"

/-- `SessionReconciler.validateTools`: requested tools must occur in a
present `policy.tools.allowed` list. -/
def reconcilerValidateTools (sessionSpec policySpec : GoVal) : Except String Unit :=
  match sessionSpec.getMap "policy" with
  | none => .ok ()
  | some sessionPolicy =>
      match sessionPolicy.getMap "toolConstraints" with
      | none => .ok ()
      | some toolConstraints =>
          match toolConstraints.getArr "allowed" with
          | none => .ok ()
          | some requestedTools =>
              match policySpec.getMap "tools" with
              | none => .ok ()
              | some tools =>
                  match tools.getArr "allowed" with
                  | none => .ok ()
                  | some allowed => requireAllInPlain requestedTools allowed "tool"

/-- `SessionReconciler.validatePolicy`: fetch the tenant policy (absence
means no restrictions) and run budget, model and tool checks. -/
def reconcilerValidatePolicy (session : GoVal) (pf : PolicyFetch) : Except String Unit :=
  match pf with
  | .fetchError => .error "failed to get namespace policy"
  | .notFound => .ok ()
  | .found policy =>
      let sessionSpec := (session.getMap "spec").getD .null
      let policySpec := (policy.getMap "spec").getD .null
      match reconcilerValidateBudget sessionSpec policySpec with
      | .error e => .error e
      | .ok _ =>
          match reconcilerValidateModels sessionSpec policySpec with
          | .error e => .error e
          | .ok _ => reconcilerValidateTools sessionSpec policySpec

/-- History entry appended by `SessionReconciler.updatePhase`.  Note the Go
format string `"PhaseChanged%s"`: no separator between event name and phase. -/
def reconcilerHistoryEntry (phase message now : String) : GoVal :=
  GoVal.mkObj [("timestamp", .str now),
               ("event", .str ("PhaseChanged" ++ phase)),
               ("data", GoVal.mkObj [("phase", .str phase), ("message", .str message)])]

/-- Condition entry appended by `SessionReconciler.updatePhase`. -/
def reconcilerPhaseCondition (phase message now : String) : GoVal :=
  GoVal.mkObj [("type", .str ("Phase" ++ phase)),
               ("status", .str "True"),
               ("lastTransitionTime", .str now),
               ("reason", .str phase),
               ("message", .str message)]

/-- Pure status effect of `SessionReconciler.updatePhase`: set `status.phase`
and append exactly one history entry and one phase condition. -/
def updatePhaseStatus (session : GoVal) (phase message now : String) : GoVal :=
  let status0 := (session.getMap "status").getD (GoVal.obj .nil)
  let status1 := status0.setField "phase" (.str phase)
  let history := ((status1.getArr "history").getD []) ++ [reconcilerHistoryEntry phase message now]
  let status2 := status1.setField "history" (.arr (GoList.ofList history))
  let conditions := ((status2.getArr "conditions").getD []) ++ [reconcilerPhaseCondition phase message now]
  let status3 := status2.setField "conditions" (.arr (GoList.ofList conditions))
  session.setField "status" status3

/-- Outcome of the workload `Create` call during `handlePending`. -/
inductive WorkloadCreateOutcome where
  | created : WorkloadCreateOutcome
  | alreadyExists : WorkloadCreateOutcome
  | createError : WorkloadCreateOutcome

/-- Outcome of `checkWorkloadStatus` during `handleRunning`. -/
inductive WorkloadStatusCheck where
  | completed : WorkloadStatusCheck
  | failed : WorkloadStatusCheck
  | running : WorkloadStatusCheck
  | unknownStatus : WorkloadStatusCheck
  | checkError : WorkloadStatusCheck

/-- Phase written by one pass of `SessionReconciler.Reconcile`: `some p` when
the pass calls `updatePhase` with phase `p`, `none` when the pass leaves the
phase unchanged (terminal phases `Completed`/`Failed`, still-running
workloads, transient errors).  A `createError` only fails the session when it
is not an already-exists conflict. -/
def reconcilePhaseWrite (session : GoVal) (pf : PolicyFetch)
    (co : WorkloadCreateOutcome) (wc : WorkloadStatusCheck) : Option String :=
  if getPhase session = "Pending" then
    match reconcilerValidatePolicy session pf with
    | .error _ => some "Failed"
    | .ok _ =>
        match co with
        | .createError => some "Failed"
        | _ => some "Running"
  else if getPhase session = "Running" then
    match wc with
    | .completed => some "Completed"
    | .failed => some "Failed"
    | _ => none
  else if getPhase session = "Completed" then none
  else if getPhase session = "Failed" then none
  else some "Pending"

/-!
## Policy reconciler
Embeds `PolicyReconciler.markSessionViolation` of
`components/operator/internal/controllers/policy_controller.go`.
-/

/-- History entry appended by `markSessionViolation`. -/
def policyViolationEntry (violation now : String) : GoVal :=
  GoVal.mkObj [("timestamp", .str now),
               ("event", .str "PolicyViolation"),
               ("data", GoVal.mkObj [("reason", .str violation)])]

/-- `PolicyReconciler.markSessionViolation`: sets the phase to `Failed` and
appends a `PolicyViolation` history entry unless the session is already
`Completed` or `Failed`; returns `none` when no status write happens. -/
def markSessionViolation (session : GoVal) (violation now : String) : Option GoVal :=
  let status0 := (session.getMap "status").getD (GoVal.obj .nil)
  let phase := (status0.getStr "phase").getD ""
  if phase = "Completed" ∨ phase = "Failed" then none
  else
    let status1 := status0.setField "phase" (.str "Failed")
    let status2 := status1.setField "violationReason" (.str violation)
    let history := ((status2.getArr "history").getD []) ++ [policyViolationEntry violation now]
    let status3 := status2.setField "history" (.arr (GoList.ofList history))
    some (session.setField "status" status3)

/-- Event string used by the operator status package for a phase change
(`SessionStatusUpdater.UpdatePhase`, format string `"PhaseChanged:%s"`). -/
def statusUpdaterPhaseEvent (phase : String) : String :=
  "PhaseChanged:" ++ phase

/-!
## Spec-side state machine
The phase DAG and terminal set of spec §4.3, used to state the claims about
phase transitions.
-/

/-- Allowed phase-transition edges of the spec §4.3 state machine. -/
def specAllowedEdge (p q : String) : Bool :=
  (p == "Pending" && q == "Running") || (p == "Pending" && q == "Failed") ||
  (p == "Running" && q == "Completed") || (p == "Running" && q == "Failed") ||
  (p == "Running" && q == "TimedOut") || (p == "Running" && q == "Stopped")

/-- Terminal phases per spec §4.3. -/
def specTerminal (p : String) : Bool :=
  p == "Completed" || p == "Failed" || p == "Stopped" || p == "TimedOut"

/-!
## Backend session manager and webhook handler
Embeds `components/backend/pkg/services/session_manager.go` (the
`SessionManager` service and the `handlers.WebhookHandler`).
-/

/-- `SessionManager.generateSessionID`: derived solely from the current Unix
timestamp in whole seconds. -/
def generateSessionID (nowUnix : Int) : String :=
  "session-" ++ toString nowUnix

/-- The declarative store's session collection, keyed by namespace and name.
`create` fails when the key already exists, as the Kubernetes API server
rejects a create for an existing resource name. -/
structure SessionStore where
  items : List (String × String × GoVal)

/-- Whether a `(namespace, name)` key is present in the store. -/
def SessionStore.hasKey (st : SessionStore) (ns name : String) : Bool :=
  st.items.any (fun it => it.1 == ns && it.2.1 == name)

/-- Store create: error on an existing key, otherwise insert. -/
def SessionStore.create (st : SessionStore) (ns name : String) (o : GoVal) :
    Except String SessionStore :=
  if st.hasKey ns name then .error ("sessions \"" ++ name ++ "\" already exists")
  else .ok ⟨st.items ++ [(ns, name, o)]⟩

/-- `SessionManager.CreateSession`: builds the session object named by
`generateSessionID` and submits it to the store (labels and the optional
policy block of the Go object do not affect the store key and are kept
inside the opaque `spec`). -/
def createSession (spec : GoVal) (ns : String) (nowUnix : Int) (st : SessionStore) :
    Except String (String × SessionStore) :=
  let sessionID := generateSessionID nowUnix
  let sessionObj := GoVal.mkObj
    [("apiVersion", .str "ambient.ai/v1alpha1"),
     ("kind", .str "Session"),
     ("metadata", GoVal.mkObj [("name", .str sessionID), ("namespace", .str ns)]),
     ("spec", spec)]
  match st.create ns sessionID sessionObj with
  | .error e => .error ("failed to create session: " ++ e)
  | .ok st' => .ok (sessionID, st')

/-- `WebhookHandler.resolveNamespace`: fixed API-key-to-namespace mapping;
unknown keys fail with `invalid_api_key`. -/
def resolveNamespace (apiKey : String) : Except String String :=
  if apiKey = "test-api-key-123" then .ok "team-alpha"
  else if apiKey = "test-api-key-456" then .ok "team-alpha"
  else if apiKey = "test-slack-key-789" then .ok "team-alpha"
  else if apiKey = "budget-exceeded-key" then .ok "team-beta"
  else if apiKey = "rate-limited-key" then .ok "team-gamma"
  else .error "invalid_api_key"

/-- `WebhookHandler.validateNamespacePolicy`: simulated policy outcomes per
namespace. -/
def webhookValidateNamespacePolicy (ns source : String) : Except String Unit :=
  if ns = "team-beta" then .error "budget_exceeded"
  else if ns = "team-gamma" then .error "rate_limit_exceeded"
  else .ok ()

/-- `WebhookHandler.determineEventType`: event name from source and payload. -/
def determineEventType (source : String) (payload : GoVal) : String :=
  if source = "github" then
    match payload.getStr "action" with
    | some action => "pull_request_" ++ action
    | none => "unknown"
  else if source = "jira" then (payload.getStr "webhookEvent").getD "unknown"
  else if source = "slack" then (payload.getStr "type").getD "message"
  else "unknown"

/-- `WebhookHandler.determineFrameworkType`: always `claude-code`. -/
def determineFrameworkType (source : String) (payload : GoVal) : String :=
  "claude-code"

/-- `WebhookHandler.createSessionFromWebhook`: the Session object built from
an authenticated webhook request. -/
def createSessionFromWebhook (sessionID ns source : String) (payload : GoVal)
    (now : String) : GoVal :=
  let eventType := determineEventType source payload
  let frameworkType := determineFrameworkType source payload
  GoVal.mkObj
    [("apiVersion", .str "ambient.ai/v1alpha1"),
     ("kind", .str "Session"),
     ("metadata", GoVal.mkObj
       [("name", .str sessionID),
        ("namespace", .str ns),
        ("labels", GoVal.mkObj
          [("ambient.ai/trigger-source", .str source),
           ("ambient.ai/framework-type", .str frameworkType)]),
        ("annotations", GoVal.mkObj
          [("ambient.ai/created-by", .str "webhook-handler"),
           ("ambient.ai/created-at", .str now)])]),
     ("spec", GoVal.mkObj
       [("trigger", GoVal.mkObj
          [("source", .str source), ("event", .str eventType), ("payload", payload)]),
        ("framework", GoVal.mkObj
          [("type", .str frameworkType), ("version", .str "1.0"), ("config", GoVal.obj .nil)]),
        ("policy", GoVal.mkObj
          [("modelConstraints", GoVal.mkObj
             [("allowed", .arr (.cons (.str "claude-3-sonnet") .nil)),
              ("budget", .str "100.00")]),
           ("toolConstraints", GoVal.mkObj
             [("allowed", .arr (GoList.ofList [.str "bash", .str "edit", .str "read", .str "write"]))]),
           ("approvalRequired", .boolean false)])])]

/-- HTTP outcome of a webhook request: status code and the Session object
created in the store, if any. -/
structure WebhookOut where
  status : Nat
  created : Option GoVal

/-- `WebhookHandler.handleWebhook`: authenticate the API key, resolve the
namespace from the key, parse the payload (`none` models an unparsable
body), check the namespace policy, then create the Session.  `clientNil`
models the test-only branch that skips creation, `storeCreateOk` the outcome
of the store create call. -/
def handleWebhook (source apiKey : String) (body : Option GoVal)
    (sessionUUID now : String) (clientNil : Bool) (storeCreateOk : Bool) : WebhookOut :=
  if apiKey = "" then ⟨400, none⟩
  else
    match resolveNamespace apiKey with
    | .error e => if e = "invalid_api_key" then ⟨401, none⟩ else ⟨500, none⟩
    | .ok ns =>
        match body with
        | none => ⟨400, none⟩
        | some payload =>
            match webhookValidateNamespacePolicy ns source with
            | .error e =>
                if e = "budget_exceeded" then ⟨403, none⟩
                else if e = "rate_limit_exceeded" then ⟨429, none⟩
                else ⟨403, none⟩
            | .ok _ =>
                if clientNil then ⟨202, none⟩
                else if storeCreateOk then
                  ⟨202, some (createSessionFromWebhook sessionUUID ns source payload now)⟩
                else ⟨500, none⟩

/-!
## Statement helpers
Read-only projections of session and policy objects, used to state the
claims.
-/

/-- `spec.framework.type` of a session object. -/
def frameworkTypeOfSession (s : GoVal) : Option String :=
  (((s.getMap "spec").getD .null).getMap "framework").getD .null |>.getStr "type"

/-- `status.history` of a session object (empty when absent). -/
def sessionHistory (s : GoVal) : List GoVal :=
  (((s.getMap "status").getD .null).getArr "history").getD []

/-- The `event` strings of a session's history entries. -/
def historyEventsOf (s : GoVal) : List String :=
  (sessionHistory s).map (fun e => (e.getStr "event").getD "")

/-- `status.phase` of a session object (empty when absent). -/
def rawPhaseOf (s : GoVal) : String :=
  (((s.getMap "status").getD .null).getStr "phase").getD ""

/-- The list requested under `policy.<constraintKey>.allowed` of a session
spec (empty when absent). -/
def specRequested (sessionSpec : GoVal) (constraintKey : String) : List GoVal :=
  (((sessionSpec.getMap "policy").getD .null).getMap constraintKey).getD .null
    |>.getArr "allowed" |>.getD []

/-- The list under `<sectionKey>.<listKey>` of a NamespacePolicy spec. -/
def specPolicyList (policySpec : GoVal) (sectionKey listKey : String) :
    Option (List GoVal) :=
  ((policySpec.getMap sectionKey).getD .null).getArr listKey

/-- The list requested under `spec.policy.<constraintKey>.allowed` of a
session (empty when absent). -/
def sessionRequested (session : GoVal) (constraintKey : String) : List GoVal :=
  specRequested ((session.getMap "spec").getD .null) constraintKey

/-- The list under `spec.<sectionKey>.<listKey>` of a NamespacePolicy. -/
def policyListOf (policy : GoVal) (sectionKey listKey : String) : Option (List GoVal) :=
  specPolicyList ((policy.getMap "spec").getD .null) sectionKey listKey

/-!
## Concrete objects used as claim inputs
-/

/-- A session resting in the spec-terminal phase `Stopped`. -/
def stoppedSession : GoVal :=
  GoVal.mkObj
    [("metadata", GoVal.mkObj [("name", .str "s1"), ("namespace", .str "team-alpha")]),
     ("spec", GoVal.mkObj [("framework", GoVal.mkObj [("type", .str "claude-code")])]),
     ("status", GoVal.mkObj [("phase", .str "Stopped")])]

/-- A session resting in the terminal phase `Completed`. -/
def completedSession : GoVal :=
  GoVal.mkObj
    [("metadata", GoVal.mkObj [("name", .str "s2"), ("namespace", .str "team-alpha")]),
     ("status", GoVal.mkObj [("phase", .str "Completed")])]

/-- A history entry shared by the update-validation inputs. -/
def histEntryA : GoVal :=
  GoVal.mkObj [("timestamp", .str "2025-01-01T00:00:00Z"), ("event", .str "SessionCreated")]

/-- A second history entry appended by the new object. -/
def histEntryB : GoVal :=
  GoVal.mkObj [("timestamp", .str "2025-01-01T00:01:00Z"), ("event", .str "WorkloadStarted")]

/-- Old object of an update mutating the immutable `spec.framework.type`. -/
def updOldSession : GoVal :=
  GoVal.mkObj
    [("metadata", GoVal.mkObj [("name", .str "s3"), ("namespace", .str "team-alpha")]),
     ("spec", GoVal.mkObj
       [("trigger", GoVal.mkObj [("source", .str "manual")]),
        ("framework", GoVal.mkObj [("type", .str "claude-code")])]),
     ("status", GoVal.mkObj
       [("phase", .str "Running"), ("history", .arr (.cons histEntryA .nil))])]

/-- New object of that update: same history, different framework type. -/
def updNewSession : GoVal :=
  GoVal.mkObj
    [("metadata", GoVal.mkObj [("name", .str "s3"), ("namespace", .str "team-alpha")]),
     ("spec", GoVal.mkObj
       [("trigger", GoVal.mkObj [("source", .str "webhook")]),
        ("framework", GoVal.mkObj [("type", .str "custom-python")])]),
     ("status", GoVal.mkObj
       [("phase", .str "Running"), ("history", .arr (.cons histEntryA .nil))])]

/-- Old object used by the history-append witness: one history entry. -/
def histOldSession : GoVal :=
  GoVal.mkObj
    [("metadata", GoVal.mkObj [("name", .str "s4"), ("namespace", .str "team-alpha")]),
     ("status", GoVal.mkObj
       [("phase", .str "Running"), ("history", .arr (.cons histEntryA .nil))])]

/-- The status object carried by `histOldSession`. -/
def histOldStatus : GoVal :=
  GoVal.mkObj [("phase", .str "Running"), ("history", .arr (.cons histEntryA .nil))]

/-- New object appending one entry to the history of `histOldSession`. -/
def histNewSession : GoVal :=
  GoVal.mkObj
    [("metadata", GoVal.mkObj [("name", .str "s4"), ("namespace", .str "team-alpha")]),
     ("status", GoVal.mkObj
       [("phase", .str "Running"),
        ("history", .arr (.cons histEntryA (.cons histEntryB .nil)))])]

/-- A session over budget: requests `101.00` against a policy allowing
`100.00` with no usage yet. -/
def overBudgetSession : GoVal :=
  GoVal.mkObj
    [("metadata", GoVal.mkObj [("name", .str "s5"), ("namespace", .str "team-alpha")]),
     ("spec", GoVal.mkObj
       [("framework", GoVal.mkObj [("type", .str "claude-code")]),
        ("policy", GoVal.mkObj
          [("modelConstraints", GoVal.mkObj [("budget", .str "101.00")])])])]

/-- The tenant policy with a monthly budget of `100.00` and zero usage. -/
def budgetPolicy : GoVal :=
  GoVal.mkObj
    [("metadata", GoVal.mkObj [("name", .str "policy"), ("namespace", .str "team-alpha")]),
     ("spec", GoVal.mkObj
       [("models", GoVal.mkObj
         [("budget", GoVal.mkObj [("monthly", .str "100.00"), ("currency", .str "USD")])])]),
     ("status", GoVal.mkObj
       [("usage", GoVal.mkObj
         [("budget", GoVal.mkObj [("currentPeriod", .str "0.00")])])])]

/-- A session requesting one model and one tool. -/
def constrainedSession : GoVal :=
  GoVal.mkObj
    [("metadata", GoVal.mkObj [("name", .str "s6"), ("namespace", .str "team-alpha")]),
     ("spec", GoVal.mkObj
       [("framework", GoVal.mkObj [("type", .str "claude-code")]),
        ("policy", GoVal.mkObj
          [("modelConstraints", GoVal.mkObj
             [("allowed", .arr (.cons (.str "claude-3-sonnet") .nil))]),
           ("toolConstraints", GoVal.mkObj
             [("allowed", .arr (.cons (.str "bash") .nil))])])])]

/-- A tenant policy allowing that model and tool and blocking another model. -/
def constrainingPolicy : GoVal :=
  GoVal.mkObj
    [("metadata", GoVal.mkObj [("name", .str "policy"), ("namespace", .str "team-alpha")]),
     ("spec", GoVal.mkObj
       [("models", GoVal.mkObj
          [("allowed", .arr (.cons (.str "claude-3-sonnet") .nil)),
           ("blocked", .arr (.cons (.str "gpt-4") .nil))]),
        ("tools", GoVal.mkObj
          [("allowed", .arr (.cons (.str "bash") .nil))])])]

/-- A session without a status, about to receive its first phase change. -/
def freshSession : GoVal :=
  GoVal.mkObj
    [("metadata", GoVal.mkObj [("name", .str "s7"), ("namespace", .str "team-alpha")]),
     ("spec", GoVal.mkObj [("framework", GoVal.mkObj [("type", .str "claude-code")])])]

/-- A webhook payload for an opened pull request. -/
def prOpenedPayload : GoVal :=
  GoVal.mkObj [("action", .str "opened"),
               ("pull_request", GoVal.mkObj [("id", .num 123)])]

/-- A webhook payload for a closed pull request carrying a tenant hint that
must be ignored. -/
def prClosedPayload : GoVal :=
  GoVal.mkObj [("action", .str "closed"), ("namespace", .str "team-evil")]

/-!
## Helper lemmas
-/

mutual

theorem GoVal.val_eq_of_beq : ∀ a b : GoVal, GoVal.beq a b = true → a = b
  | .null, b, h => by cases b <;> simp_all [GoVal.beq]
  | .boolean x, b, h => by cases b <;> simp_all [GoVal.beq]
  | .num x, b, h => by cases b <;> simp_all [GoVal.beq]
  | .str x, b, h => by cases b <;> simp_all [GoVal.beq]
  | .arr xs, b, h => by
      cases b with
      | arr ys => rw [GoList.list_eq_of_beq xs ys (by simpa [GoVal.beq] using h)]
      | _ => simp_all [GoVal.beq]
  | .obj fs, b, h => by
      cases b with
      | obj gs => rw [GoFields.fields_eq_of_beq fs gs (by simpa [GoVal.beq] using h)]
      | _ => simp_all [GoVal.beq]

theorem GoList.list_eq_of_beq : ∀ a b : GoList, GoList.beq a b = true → a = b
  | .nil, b, h => by cases b <;> simp_all [GoList.beq]
  | .cons x xs, b, h => by
      cases b with
      | cons y ys =>
          have h' : GoVal.beq x y = true ∧ GoList.beq xs ys = true := by
            simpa [GoList.beq] using h
          rw [GoVal.val_eq_of_beq x y h'.1, GoList.list_eq_of_beq xs ys h'.2]
      | nil => simp_all [GoList.beq]

theorem GoFields.fields_eq_of_beq : ∀ a b : GoFields, GoFields.beq a b = true → a = b
  | .nil, b, h => by cases b <;> simp_all [GoFields.beq]
  | .cons k v fs, b, h => by
      cases b with
      | cons k' v' fs' =>
          have h' : k = k' ∧ GoVal.beq v v' = true ∧ GoFields.beq fs fs' = true := by
            simpa [GoFields.beq, and_assoc] using h
          rw [h'.1, GoVal.val_eq_of_beq v v' h'.2.1, GoFields.fields_eq_of_beq fs fs' h'.2.2]
      | nil => simp_all [GoFields.beq]

end

mutual

theorem GoVal.val_beq_refl : ∀ a : GoVal, GoVal.beq a a = true
  | .null => rfl
  | .boolean x => by simp [GoVal.beq]
  | .num x => by simp [GoVal.beq]
  | .str x => by simp [GoVal.beq]
  | .arr xs => by simpa [GoVal.beq] using GoList.list_beq_refl xs
  | .obj fs => by simpa [GoVal.beq] using GoFields.fields_beq_refl fs

theorem GoList.list_beq_refl : ∀ a : GoList, GoList.beq a a = true
  | .nil => rfl
  | .cons x xs => by
      simp only [GoList.beq, Bool.and_eq_true]
      exact ⟨GoVal.val_beq_refl x, GoList.list_beq_refl xs⟩

theorem GoFields.fields_beq_refl : ∀ a : GoFields, GoFields.beq a a = true
  | .nil => rfl
  | .cons k v fs => by
      simp only [GoFields.beq, Bool.and_eq_true, beq_self_eq_true, true_and]
      exact ⟨GoVal.val_beq_refl v, GoFields.fields_beq_refl fs⟩

end

theorem mem_of_any_beq {m : GoVal} {l : List GoVal}
    (h : l.any (fun a => GoVal.beq m a) = true) : m ∈ l := by
  rcases List.any_eq_true.mp h with ⟨a, ha, hb⟩
  rw [GoVal.val_eq_of_beq m a hb]
  exact ha

theorem any_beq_of_mem {m : GoVal} {l : List GoVal} (h : m ∈ l) :
    l.any (fun a => GoVal.beq m a) = true :=
  List.any_eq_true.mpr ⟨m, h, GoVal.val_beq_refl m⟩

theorem requireAllIn_ok_mem :
    ∀ {requested allowed : List GoVal} {w : String},
      requireAllIn requested allowed w = .ok () → ∀ m ∈ requested, m ∈ allowed := by
  intro requested
  induction requested with
  | nil => intro allowed w _ m hm; cases hm
  | cons r rs ih =>
      intro allowed w h m hm
      unfold requireAllIn at h
      by_cases hb : allowed.any (fun a => GoVal.beq r a) = true
      · rw [if_pos hb] at h
        rcases List.mem_cons.mp hm with rfl | hm
        · exact mem_of_any_beq hb
        · exact ih h m hm
      · rw [if_neg hb] at h
        cases h

theorem requireNoneIn_ok_not_mem :
    ∀ {requested blocked : List GoVal} {w : String},
      requireNoneIn requested blocked w = .ok () → ∀ m ∈ requested, m ∉ blocked := by
  intro requested
  induction requested with
  | nil => intro blocked w _ m hm; cases hm
  | cons r rs ih =>
      intro blocked w h m hm
      unfold requireNoneIn at h
      by_cases hb : blocked.any (fun a => GoVal.beq r a) = true
      · rw [if_pos hb] at h; cases h
      · rw [if_neg hb] at h
        rcases List.mem_cons.mp hm with rfl | hm
        · intro hmem; exact hb (any_beq_of_mem hmem)
        · exact ih h m hm

theorem GoFields.lookup_setKey_ne : ∀ (fs : GoFields) (k k' : String) (x : GoVal),
    k ≠ k' → (fs.setKey k x).lookup k' = fs.lookup k'
  | .nil, k, k', x, h => by simp [GoFields.setKey, GoFields.lookup, h]
  | .cons key v rest, k, k', x, h => by
      by_cases hk : key = k
      · subst hk
        simp [GoFields.setKey, GoFields.lookup, h]
      · simp [GoFields.setKey, GoFields.lookup, hk,
          GoFields.lookup_setKey_ne rest k k' x h]

theorem GoFields.lookup_setKey_self : ∀ (fs : GoFields) (k : String) (x : GoVal),
    (fs.setKey k x).lookup k = some x
  | .nil, k, x => by simp [GoFields.setKey, GoFields.lookup]
  | .cons key v rest, k, x => by
      by_cases hk : key = k
      · subst hk; simp [GoFields.setKey, GoFields.lookup]
      · simp [GoFields.setKey, GoFields.lookup, hk,
          GoFields.lookup_setKey_self rest k x]

theorem GoList.toList_ofList (l : List GoVal) : (GoList.ofList l).toList = l := by
  induction l with
  | nil => rfl
  | cons x xs ih => simp [GoList.ofList, GoList.toList, ih]

/-- `checkHistoryEntries` succeeds exactly when the old list is no longer
than the new one and the new list starts with entries serializing to the
same canonical JSON. -/
theorem checkHistoryEntries_ok_iff :
    ∀ (os ns : List GoVal) (i : Nat),
      checkHistoryEntries os ns i = .ok () ↔
        os.length ≤ ns.length ∧
          (ns.take os.length).map GoVal.canonicalJson = os.map GoVal.canonicalJson := by
  intro os
  induction os with
  | nil => intro ns i; simp [checkHistoryEntries]
  | cons o os' ih =>
      intro ns i
      cases ns with
      | nil => simp [checkHistoryEntries]
      | cons n ns' =>
          simp only [checkHistoryEntries, List.length_cons, List.take_succ_cons,
            List.map_cons, List.cons.injEq, Nat.add_le_add_iff_right]
          by_cases hc : GoVal.canonicalJson o = GoVal.canonicalJson n
          · rw [if_pos hc, ih ns' (i + 1)]
            constructor
            · rintro ⟨h1, h2⟩
              exact ⟨h1, hc.symm, h2⟩
            · rintro ⟨h1, _, h2⟩
              exact ⟨h1, h2⟩
          · rw [if_neg hc]
            constructor
            · intro h
              exact Except.noConfusion h
            · rintro ⟨_, h2, _⟩
              exact absurd h2.symm hc

/-!
## Claim theorems
-/

/-- C9: for every admission request whose operation is neither CREATE nor
UPDATE (for example DELETE or CONNECT), the SessionValidator's `Handle`
returns Allowed without performing any validation. -/
theorem C9_handle_allows_other_operations (op : String) (s : GoVal)
    (decodedOld : Option GoVal) (pf : PolicyFetch)
    (h1 : op ≠ "CREATE") (h2 : op ≠ "UPDATE") :
    sessionValidatorHandle op (some s) decodedOld pf = .allowed := by
  simp [sessionValidatorHandle, h1, h2]

/-- C9 witness: a DELETE admission request is allowed unvalidated. -/
theorem C9_witness :
    ("DELETE" : String) ≠ "CREATE" ∧ ("DELETE" : String) ≠ "UPDATE" ∧
    sessionValidatorHandle "DELETE" (some stoppedSession) none .notFound = .allowed :=
  ⟨by decide, by decide,
   C9_handle_allows_other_operations "DELETE" stoppedSession none .notFound
     (by decide) (by decide)⟩

/-- C8 counterexample: a webhook request with a missing credential receives
HTTP 400, not the claimed 401. -/
theorem C8_counterexample :
    (handleWebhook "github" "" (some prOpenedPayload) "u1" "t1" false true).status = 400 ∧
    (400 : Nat) ≠ 401 := by
  refine ⟨by rfl, by decide⟩

/-- C8 amended: a webhook request with a missing credential receives HTTP
400 (`missing_api_key`) and one with an invalid credential receives HTTP
401 (`invalid_api_key`). -/
theorem C8_amended_auth_failures (source apiKey : String) (body : Option GoVal)
    (u t : String) (cn co : Bool) :
    (apiKey = "" → (handleWebhook source apiKey body u t cn co).status = 400) ∧
    (apiKey ≠ "" → resolveNamespace apiKey = .error "invalid_api_key" →
      (handleWebhook source apiKey body u t cn co).status = 401) := by
  constructor
  · intro h
    simp [handleWebhook, h]
  · intro h1 h2
    simp [handleWebhook, h1, h2]

/-- C8 witness: the missing-credential and invalid-credential cases at
concrete requests. -/
theorem C8_witness :
    (("" : String) = "" ∧
      (handleWebhook "github" "" (some prOpenedPayload) "u1" "t1" false true).status = 400) ∧
    (("bad-key" : String) ≠ "" ∧
      resolveNamespace "bad-key" = .error "invalid_api_key" ∧
      (handleWebhook "github" "bad-key" (some prOpenedPayload) "u1" "t1" false true).status = 401) :=
  ⟨⟨rfl,
    (C8_amended_auth_failures "github" "" (some prOpenedPayload) "u1" "t1" false true).1 rfl⟩,
   ⟨by decide, by rfl,
    (C8_amended_auth_failures "github" "bad-key" (some prOpenedPayload) "u1" "t1" false true).2
      (by decide) (by rfl)⟩⟩

/-- C5 (code bug): neither admission's `validateCreate` nor the reconciler's
`validateBudget` enforces the budget inequality: a create requesting a
budget of `101.00` against a remaining allowance of `100.00 − 0.00` is
admitted. -/
theorem C5_budget_not_enforced :
    validateCreate overBudgetSession (.found budgetPolicy) = .allowed ∧
    reconcilerValidateBudget ((overBudgetSession.getMap "spec").getD .null)
      ((budgetPolicy.getMap "spec").getD .null) = .ok () ∧
    (101 : Int) > 100 - 0 := by
  refine ⟨by rfl, by rfl, by decide⟩

/-- C7 (code bug): `updatePhase` appends exactly one history entry per phase
change, but the entry's event string is `"PhaseChanged<phase>"` with no
colon, not the `"PhaseChanged:<phase>"` format of the spec and of the
operator status package. -/
theorem C7_phase_change_event_format :
    historyEventsOf (updatePhaseStatus freshSession "Running"
        "Workload created successfully" "2025-01-01T00:00:00Z") = ["PhaseChangedRunning"] ∧
    (sessionHistory (updatePhaseStatus freshSession "Running"
        "Workload created successfully" "2025-01-01T00:00:00Z")).length =
      (sessionHistory freshSession).length + 1 ∧
    statusUpdaterPhaseEvent "Running" = "PhaseChanged:Running" ∧
    "PhaseChangedRunning" ≠ "PhaseChanged:Running" := by
  refine ⟨by rfl, by rfl, by rfl, by decide⟩

/-- C1 counterexample: the reconciler resets a session resting in the
spec-terminal phase `Stopped` back to `Pending`: it leaves a terminal
state along an edge that is not in the §4.3 DAG. -/
theorem C1_counterexample :
    reconcilePhaseWrite stoppedSession .notFound .created .running = some "Pending" ∧
    specTerminal "Stopped" = true ∧
    specAllowedEdge "Stopped" "Pending" = false := by
  refine ⟨by rfl, by rfl, by rfl⟩

/-- C2 counterexample: an update mutating the immutable
`spec.framework.type` (claude-code → custom-python) and the immutable
`spec.trigger` is admitted by `validateUpdate`. -/
theorem C2_counterexample :
    validateUpdate updOldSession updNewSession = .allowed ∧
    frameworkTypeOfSession updOldSession = some "claude-code" ∧
    frameworkTypeOfSession updNewSession = some "custom-python" := by
  refine ⟨by rfl, by rfl, by rfl⟩

/-- C2 amended: the SessionValidator's update path checks only
`status.history`: its verdict does not depend on the new object's spec, and
any update passing the history check is admitted, including updates that
mutate fields marked immutable in §3.1. -/
theorem C2_amended_update_ignores_spec (oldS newS spec1 spec2 : GoVal) :
    validateUpdate oldS (newS.setField "spec" spec1) =
      validateUpdate oldS (newS.setField "spec" spec2) ∧
    (validateHistoryAppendOnly oldS newS = .ok () →
      validateUpdate oldS newS = .allowed) := by
  have key : ∀ sp : GoVal,
      (newS.setField "spec" sp).getMap "status" = newS.getMap "status" := by
    intro sp
    cases newS <;> simp only [GoVal.setField, GoVal.getMap]
    rw [GoFields.lookup_setKey_ne _ _ _ _ (by decide)]
  have main : ∀ sp : GoVal,
      validateUpdate oldS (newS.setField "spec" sp) = validateUpdate oldS newS := by
    intro sp
    simp only [validateUpdate, validateHistoryAppendOnly, key sp]
  constructor
  · exact (main spec1).trans (main spec2).symm
  · intro h
    simp [validateUpdate, h]

/-- C2 amended witness: the verdict at a concrete update is unchanged under
two different spec mutations, and the history-preserving update is
admitted. -/
theorem C2_amended_witness :
    (validateUpdate updOldSession
        (updNewSession.setField "spec"
          (GoVal.mkObj [("framework", GoVal.mkObj [("type", .str "bash-runner")])])) =
      validateUpdate updOldSession
        (updNewSession.setField "spec"
          (GoVal.mkObj [("framework", GoVal.mkObj [("type", .str "custom-python")])]))) ∧
    validateHistoryAppendOnly updOldSession updNewSession = .ok () ∧
    validateUpdate updOldSession updNewSession = .allowed :=
  ⟨(C2_amended_update_ignores_spec updOldSession updNewSession
      (GoVal.mkObj [("framework", GoVal.mkObj [("type", .str "bash-runner")])])
      (GoVal.mkObj [("framework", GoVal.mkObj [("type", .str "custom-python")])])).1,
   by rfl,
   (C2_amended_update_ignores_spec updOldSession updNewSession
      (GoVal.mkObj [("framework", GoVal.mkObj [("type", .str "bash-runner")])])
      (GoVal.mkObj [("framework", GoVal.mkObj [("type", .str "custom-python")])])).2 (by rfl)⟩

/-- C10: `generateSessionID` depends only on the Unix second, so two
`CreateSession` calls in the same second produce the same session name; if
the first create succeeded, the second fails with a store error instead of
creating a second distinct Session. -/
theorem C10_same_second_create_conflicts (spec1 spec2 : GoVal) (ns : String)
    (t : Int) (st st' : SessionStore) (sid : String)
    (h : createSession spec1 ns t st = .ok (sid, st')) :
    sid = "session-" ++ toString t ∧
    ∃ e, createSession spec2 ns t st' = .error e := by
  simp only [createSession, SessionStore.create] at h
  by_cases hk : st.hasKey ns (generateSessionID t) = true
  · rw [if_pos hk] at h
    exact Except.noConfusion h
  · rw [if_neg hk] at h
    simp only [Except.ok.injEq, Prod.mk.injEq] at h
    obtain ⟨hsid, hst⟩ := h
    have hk' : st'.hasKey ns (generateSessionID t) = true := by
      rw [← hst]
      simp [SessionStore.hasKey]
    constructor
    · rw [← hsid]; rfl
    · refine ⟨"failed to create session: " ++
        ("sessions \"" ++ generateSessionID t ++ "\" already exists"), ?_⟩
      simp only [createSession, SessionStore.create]
      rw [if_pos hk']

/-- C10 witness: two creates at the same second against an empty store; the
first succeeds and yields the timestamp-derived name, the second errors. -/
theorem C10_witness :
    createSession (GoVal.obj .nil) "team-alpha" 1700000000 ⟨[]⟩ =
      .ok ("session-1700000000",
        ⟨[("team-alpha", "session-1700000000",
           GoVal.mkObj
             [("apiVersion", .str "ambient.ai/v1alpha1"),
              ("kind", .str "Session"),
              ("metadata", GoVal.mkObj
                [("name", .str "session-1700000000"),
                 ("namespace", .str "team-alpha")]),
              ("spec", GoVal.obj .nil)])]⟩) ∧
    "session-1700000000" = "session-" ++ toString (1700000000 : Int) ∧
    ∃ e, createSession (GoVal.obj .nil) "team-alpha" 1700000000
        ⟨[("team-alpha", "session-1700000000",
           GoVal.mkObj
             [("apiVersion", .str "ambient.ai/v1alpha1"),
              ("kind", .str "Session"),
              ("metadata", GoVal.mkObj
                [("name", .str "session-1700000000"),
                 ("namespace", .str "team-alpha")]),
              ("spec", GoVal.obj .nil)])]⟩ = .error e :=
  ⟨by rfl,
   (C10_same_second_create_conflicts (GoVal.obj .nil) (GoVal.obj .nil) "team-alpha"
      1700000000 ⟨[]⟩ _ _ (by rfl)).1,
   (C10_same_second_create_conflicts (GoVal.obj .nil) (GoVal.obj .nil) "team-alpha"
      1700000000 ⟨[]⟩ _ _ (by rfl)).2⟩

/-- C1 amended: the implementation treats exactly `Completed` and `Failed`
as terminal: sessions in those phases are never phase-changed by session or
policy reconciliation, and every phase the session reconciler writes is one
of Pending, Running, Completed, Failed; the spec phases `Stopped` and
`TimedOut` are instead handled as unknown phases and reset to `Pending`. -/
theorem C1_amended_terminal_phases :
    (∀ s pf co wc, getPhase s = "Completed" ∨ getPhase s = "Failed" →
        reconcilePhaseWrite s pf co wc = none) ∧
    (∀ s v t, getPhase s = "Completed" ∨ getPhase s = "Failed" →
        markSessionViolation s v t = none) ∧
    (∀ s pf co wc p, reconcilePhaseWrite s pf co wc = some p →
        p = "Pending" ∨ p = "Running" ∨ p = "Completed" ∨ p = "Failed") := by
  refine ⟨?_, ?_, ?_⟩
  · intro s pf co wc h
    rcases h with h | h <;> simp [reconcilePhaseWrite, h]
  · intro s v t h
    have hraw :
        (((s.getMap "status").getD (GoVal.obj GoFields.nil)).getStr "phase").getD "" = "Completed" ∨
        (((s.getMap "status").getD (GoVal.obj GoFields.nil)).getStr "phase").getD "" = "Failed" := by
      unfold getPhase at h
      cases hm : s.getMap "status" with
      | none =>
          simp only [hm] at h
          rcases h with h | h <;> exact absurd h (by decide)
      | some st =>
          simp only [hm] at h
          simp only [hm, Option.getD_some]
          cases hp : st.getStr "phase" with
          | none =>
              simp only [hp] at h
              rcases h with h | h <;> exact absurd h (by decide)
          | some p =>
              simp only [hp] at h
              simp only [hp, Option.getD_some]
              by_cases hemp : p = ""
              · rw [if_pos hemp] at h
                rcases h with h | h <;> exact absurd h (by decide)
              · rw [if_neg hemp] at h
                exact h
    simp only [markSessionViolation]
    rw [if_pos hraw]
  · intro s pf co wc p h
    unfold reconcilePhaseWrite at h
    by_cases h1 : getPhase s = "Pending"
    · rw [if_pos h1] at h
      cases hv : reconcilerValidatePolicy s pf with
      | error e =>
          rw [hv] at h
          simp at h
          subst h
          simp
      | ok u =>
          rw [hv] at h
          cases co <;> simp at h <;> subst h <;> simp
    · rw [if_neg h1] at h
      by_cases h2 : getPhase s = "Running"
      · rw [if_pos h2] at h
        cases wc <;> simp at h <;> subst h <;> simp
      · rw [if_neg h2] at h
        by_cases h3 : getPhase s = "Completed"
        · rw [if_pos h3] at h
          exact Option.noConfusion h
        · rw [if_neg h3] at h
          by_cases h4 : getPhase s = "Failed"
          · rw [if_pos h4] at h
            exact Option.noConfusion h
          · rw [if_neg h4] at h
            simp at h
            subst h
            simp

theorem checkAllowedSection_sound {requested : List GoVal} {sec : GoVal} {w : String}
    (h : checkAllowedSection requested sec w = .ok ()) :
    ∀ m ∈ requested, ∀ al, sec.getArr "allowed" = some al → m ∈ al := by
  intro m hm al hal
  unfold checkAllowedSection at h
  simp only [hal] at h
  exact requireAllIn_ok_mem h m hm

theorem checkBlockedSection_sound {requested : List GoVal} {sec : GoVal} {w : String}
    (h : checkBlockedSection requested sec w = .ok ()) :
    ∀ m ∈ requested, ∀ bl, sec.getArr "blocked" = some bl → m ∉ bl := by
  intro m hm bl hbl
  unfold checkBlockedSection at h
  simp only [hbl] at h
  exact requireNoneIn_ok_not_mem h m hm

theorem validateListConstraints_sound {requested : List GoVal} {secOpt : Option GoVal}
    {w : String} (h : validateListConstraints requested secOpt w = .ok ()) :
    ∀ m ∈ requested,
      (∀ al, ((secOpt.getD .null).getArr "allowed") = some al → m ∈ al) ∧
      (∀ bl, ((secOpt.getD .null).getArr "blocked") = some bl → m ∉ bl) := by
  intro m hm
  cases secOpt with
  | none =>
      constructor
      · intro al hal; simp [GoVal.getArr] at hal
      · intro bl hbl; simp [GoVal.getArr] at hbl
  | some sec =>
      unfold validateListConstraints at h
      cases hA : checkAllowedSection requested sec w with
      | error e => simp only [hA] at h; exact Except.noConfusion h
      | ok u =>
          cases u
          simp only [hA] at h
          constructor
          · intro al hal; exact checkAllowedSection_sound hA m hm al hal
          · intro bl hbl; exact checkBlockedSection_sound h m hm bl hbl

theorem specRequested_no_policy {sSpec : GoVal} (k : String)
    (h : sSpec.getMap "policy" = none) : specRequested sSpec k = [] := by
  unfold specRequested
  rw [h]
  rfl

theorem specRequested_no_constraints {sSpec sp : GoVal} {k : String}
    (h1 : sSpec.getMap "policy" = some sp) (h2 : sp.getMap k = none) :
    specRequested sSpec k = [] := by
  unfold specRequested
  rw [h1, Option.getD_some, h2]
  rfl

theorem specRequested_no_allowed {sSpec sp mc : GoVal} {k : String}
    (h1 : sSpec.getMap "policy" = some sp) (h2 : sp.getMap k = some mc)
    (h3 : mc.getArr "allowed" = none) : specRequested sSpec k = [] := by
  unfold specRequested
  rw [h1, Option.getD_some, h2, Option.getD_some, h3]
  rfl

theorem specRequested_allowed {sSpec sp mc : GoVal} {k : String} {reqs : List GoVal}
    (h1 : sSpec.getMap "policy" = some sp) (h2 : sp.getMap k = some mc)
    (h3 : mc.getArr "allowed" = some reqs) : specRequested sSpec k = reqs := by
  unfold specRequested
  rw [h1, Option.getD_some, h2, Option.getD_some, h3]
  rfl

theorem validateModelConstraints_sound {sSpec pSpec : GoVal}
    (h : validateModelConstraints sSpec pSpec = .ok ()) :
    ∀ m ∈ specRequested sSpec "modelConstraints",
      (∀ al, specPolicyList pSpec "models" "allowed" = some al → m ∈ al) ∧
      (∀ bl, specPolicyList pSpec "models" "blocked" = some bl → m ∉ bl) := by
  intro m hm
  unfold validateModelConstraints at h
  cases h1 : sSpec.getMap "policy" with
  | none =>
      rw [specRequested_no_policy _ h1] at hm
      cases hm
  | some sp =>
      simp only [h1] at h
      cases h2 : sp.getMap "modelConstraints" with
      | none =>
          rw [specRequested_no_constraints h1 h2] at hm
          cases hm
      | some mc =>
          simp only [h2] at h
          cases h3 : mc.getArr "allowed" with
          | none =>
              rw [specRequested_no_allowed h1 h2 h3] at hm
              cases hm
          | some reqs =>
              simp only [h3] at h
              rw [specRequested_allowed h1 h2 h3] at hm
              exact validateListConstraints_sound h m hm

theorem validateToolConstraints_sound {sSpec pSpec : GoVal}
    (h : validateToolConstraints sSpec pSpec = .ok ()) :
    ∀ m ∈ specRequested sSpec "toolConstraints",
      (∀ al, specPolicyList pSpec "tools" "allowed" = some al → m ∈ al) ∧
      (∀ bl, specPolicyList pSpec "tools" "blocked" = some bl → m ∉ bl) := by
  intro m hm
  unfold validateToolConstraints at h
  cases h1 : sSpec.getMap "policy" with
  | none =>
      rw [specRequested_no_policy _ h1] at hm
      cases hm
  | some sp =>
      simp only [h1] at h
      cases h2 : sp.getMap "toolConstraints" with
      | none =>
          rw [specRequested_no_constraints h1 h2] at hm
          cases hm
      | some tc =>
          simp only [h2] at h
          cases h3 : tc.getArr "allowed" with
          | none =>
              rw [specRequested_no_allowed h1 h2 h3] at hm
              cases hm
          | some reqs =>
              simp only [h3] at h
              rw [specRequested_allowed h1 h2 h3] at hm
              exact validateListConstraints_sound h m hm

theorem validateCreate_allowed_parts {s : GoVal} {pf : PolicyFetch}
    (h : validateCreate s pf = .allowed) :
    validateFrameworkType s = .ok () ∧ validateAgainstNamespacePolicy s pf = .ok () := by
  unfold validateCreate at h
  cases h1 : validateFrameworkType s with
  | error e => simp only [h1] at h; exact AdmissionResult.noConfusion h
  | ok u =>
      cases u
      simp only [h1] at h
      cases h2 : validateAgainstNamespacePolicy s pf with
      | error e => simp only [h2] at h; exact AdmissionResult.noConfusion h
      | ok v => cases v; exact ⟨rfl, rfl⟩

theorem validateAgainstNamespacePolicy_found {session policy : GoVal}
    (h : validateAgainstNamespacePolicy session (.found policy) = .ok ()) :
    validateSessionAgainstPolicy session policy = .ok () := by
  unfold validateAgainstNamespacePolicy at h
  by_cases hn : session.getNamespaceOf = ""
  · rw [if_pos hn] at h; exact Except.noConfusion h
  · rw [if_neg hn] at h; exact h

theorem validateSessionAgainstPolicy_parts {session policy : GoVal}
    (h : validateSessionAgainstPolicy session policy = .ok ()) :
    validateModelConstraints ((session.getMap "spec").getD .null)
      ((policy.getMap "spec").getD .null) = .ok () ∧
    validateToolConstraints ((session.getMap "spec").getD .null)
      ((policy.getMap "spec").getD .null) = .ok () := by
  simp only [validateSessionAgainstPolicy] at h
  cases h1 : validateFrameworkConstraints ((session.getMap "spec").getD .null)
      ((policy.getMap "spec").getD .null) with
  | error e => simp only [h1] at h; exact Except.noConfusion h
  | ok u =>
      cases u
      simp only [h1] at h
      cases h2 : validateModelConstraints ((session.getMap "spec").getD .null)
          ((policy.getMap "spec").getD .null) with
      | error e => simp only [h2] at h; exact Except.noConfusion h
      | ok v =>
          cases v
          simp only [h2] at h
          exact ⟨rfl, h⟩

theorem createSessionFromWebhook_namespace (u ns source : String) (p : GoVal)
    (t : String) : (createSessionFromWebhook u ns source p t).getNamespaceOf = ns := rfl

/-- C1 amended witness: a Completed session is untouched by both
reconcilers, and the reset of a Stopped session writes a legal phase. -/
theorem C1_amended_witness :
    reconcilePhaseWrite completedSession .notFound .created .running = none ∧
    markSessionViolation completedSession "model gpt-4 is blocked by policy"
      "2025-01-01T00:00:00Z" = none ∧
    ("Pending" = "Pending" ∨ "Pending" = "Running" ∨
      "Pending" = "Completed" ∨ "Pending" = "Failed") :=
  ⟨C1_amended_terminal_phases.1 completedSession .notFound .created .running (Or.inl rfl),
   C1_amended_terminal_phases.2.1 completedSession "model gpt-4 is blocked by policy"
     "2025-01-01T00:00:00Z" (Or.inl rfl),
   C1_amended_terminal_phases.2.2 stoppedSession .notFound .created .running "Pending" (by rfl)⟩

/-- C6: with a NamespacePolicy present, a create is admitted only if every
requested model occurs in a present (hence in a non-empty)
`policy.models.allowed` list and in no `policy.models.blocked` list, and
likewise for tools; with no NamespacePolicy for the tenant the policy check
is unrestricted and a schema-valid create is admitted. -/
theorem C6_create_respects_policy_lists :
    (∀ session policy, validateCreate session (.found policy) = .allowed →
        (∀ m ∈ sessionRequested session "modelConstraints",
            (∀ al, policyListOf policy "models" "allowed" = some al → m ∈ al) ∧
            (∀ bl, policyListOf policy "models" "blocked" = some bl → m ∉ bl)) ∧
        (∀ tl ∈ sessionRequested session "toolConstraints",
            (∀ al, policyListOf policy "tools" "allowed" = some al → tl ∈ al) ∧
            (∀ bl, policyListOf policy "tools" "blocked" = some bl → tl ∉ bl))) ∧
    (∀ session, validateFrameworkType session = .ok () →
        session.getNamespaceOf ≠ "" →
        validateCreate session .notFound = .allowed) := by
  constructor
  · intro session policy h
    obtain ⟨hft, hpol⟩ := validateCreate_allowed_parts h
    have hsap := validateAgainstNamespacePolicy_found hpol
    obtain ⟨hmc, htc⟩ := validateSessionAgainstPolicy_parts hsap
    exact ⟨validateModelConstraints_sound hmc, validateToolConstraints_sound htc⟩
  · intro session hft hns
    simp [validateCreate, validateAgainstNamespacePolicy, hft, hns]

/-- C6 witness: a concrete constrained create is admitted and therefore
satisfies the containment conclusions, and the same session is admitted
when no policy exists. -/
theorem C6_witness :
    validateCreate constrainedSession (.found constrainingPolicy) = .allowed ∧
    (∀ al, policyListOf constrainingPolicy "models" "allowed" = some al →
        GoVal.str "claude-3-sonnet" ∈ al) ∧
    (∀ bl, policyListOf constrainingPolicy "models" "blocked" = some bl →
        GoVal.str "claude-3-sonnet" ∉ bl) ∧
    validateFrameworkType constrainedSession = .ok () ∧
    constrainedSession.getNamespaceOf ≠ "" ∧
    validateCreate constrainedSession .notFound = .allowed :=
  ⟨by rfl,
   (((C6_create_respects_policy_lists.1 constrainedSession constrainingPolicy (by rfl)).1
       (GoVal.str "claude-3-sonnet") (List.Mem.head _))).1,
   (((C6_create_respects_policy_lists.1 constrainedSession constrainingPolicy (by rfl)).1
       (GoVal.str "claude-3-sonnet") (List.Mem.head _))).2,
   by rfl,
   by decide,
   C6_create_respects_policy_lists.2 constrainedSession (by rfl) (by decide)⟩

/-- C4: a Session created by the webhook handler always lives in the one
namespace bound to the authenticated credential; for a fixed credential,
varying only the request payload (including tenant-like fields inside it)
never changes the namespace of the created Session. -/
theorem C4_namespace_bound_to_credential :
    (∀ source apiKey body u t cn co s,
        (handleWebhook source apiKey body u t cn co).created = some s →
        resolveNamespace apiKey = .ok s.getNamespaceOf) ∧
    (∀ source apiKey body1 body2 u1 u2 t1 t2 cn1 cn2 co1 co2 s1 s2,
        (handleWebhook source apiKey body1 u1 t1 cn1 co1).created = some s1 →
        (handleWebhook source apiKey body2 u2 t2 cn2 co2).created = some s2 →
        s1.getNamespaceOf = s2.getNamespaceOf) := by
  have part1 : ∀ source apiKey body u t cn co s,
      (handleWebhook source apiKey body u t cn co).created = some s →
      resolveNamespace apiKey = .ok s.getNamespaceOf := by
    intro source apiKey body u t cn co s h
    unfold handleWebhook at h
    by_cases ha : apiKey = ""
    · rw [if_pos ha] at h
      exact Option.noConfusion h
    · rw [if_neg ha] at h
      cases hr : resolveNamespace apiKey with
      | error e =>
          simp only [hr] at h
          by_cases he : e = "invalid_api_key"
          · rw [if_pos he] at h; exact Option.noConfusion h
          · rw [if_neg he] at h; exact Option.noConfusion h
      | ok ns =>
          simp only [hr] at h
          cases body with
          | none => exact Option.noConfusion h
          | some payload =>
              cases hvp : webhookValidateNamespacePolicy ns source with
              | error e =>
                  simp only [hvp] at h
                  by_cases he1 : e = "budget_exceeded"
                  · rw [if_pos he1] at h; exact Option.noConfusion h
                  · rw [if_neg he1] at h
                    by_cases he2 : e = "rate_limit_exceeded"
                    · rw [if_pos he2] at h; exact Option.noConfusion h
                    · rw [if_neg he2] at h; exact Option.noConfusion h
              | ok uu =>
                  simp only [hvp] at h
                  cases cn with
                  | true => exact Option.noConfusion h
                  | false =>
                      cases co with
                      | false => exact Option.noConfusion h
                      | true =>
                          simp at h
                          subst h
                          rfl
  refine ⟨part1, ?_⟩
  intro source apiKey b1 b2 u1 u2 t1 t2 cn1 cn2 co1 co2 s1 s2 h1 h2
  have e1 := part1 source apiKey b1 u1 t1 cn1 co1 s1 h1
  have e2 := part1 source apiKey b2 u2 t2 cn2 co2 s2 h2
  rw [e1] at e2
  injection e2

/-- C4 witness: under the key of `team-alpha`, two requests with different
payloads (one carrying a hostile tenant hint) both land in `team-alpha`. -/
theorem C4_witness :
    resolveNamespace "test-api-key-123" =
      .ok ((createSessionFromWebhook "u1" "team-alpha" "github" prOpenedPayload "t1").getNamespaceOf) ∧
    (createSessionFromWebhook "u1" "team-alpha" "github" prOpenedPayload "t1").getNamespaceOf =
      (createSessionFromWebhook "u2" "team-alpha" "github" prClosedPayload "t2").getNamespaceOf :=
  ⟨C4_namespace_bound_to_credential.1 "github" "test-api-key-123" (some prOpenedPayload)
     "u1" "t1" false true _ (by rfl),
   C4_namespace_bound_to_credential.2 "github" "test-api-key-123" (some prOpenedPayload)
     (some prClosedPayload) "u1" "u2" "t1" "t2" false false true true _ _ (by rfl) (by rfl)⟩

/-- C3: for every update whose old object carries a non-empty
`status.history`, admission succeeds exactly when the new object still has a
history list that is at least as long and whose first entries are
byte-identical, as canonical JSON, to the old entries at the same indices. -/
theorem C3_history_append_only (oldS newS oldStatus : GoVal) (oldH : List GoVal)
    (h1 : oldS.getMap "status" = some oldStatus)
    (h2 : oldStatus.getArr "history" = some oldH)
    (h3 : oldH ≠ []) :
    validateUpdate oldS newS = .allowed ↔
      ∃ newH, ((newS.getMap "status").getD .null).getArr "history" = some newH ∧
        oldH.length ≤ newH.length ∧
        (newH.take oldH.length).map GoVal.canonicalJson =
          oldH.map GoVal.canonicalJson := by
  have hval : validateUpdate oldS newS = .allowed ↔
      validateHistoryAppendOnly oldS newS = .ok () := by
    unfold validateUpdate
    cases hv : validateHistoryAppendOnly oldS newS with
    | error e => simp
    | ok u => cases u; simp
  rw [hval]
  simp only [validateHistoryAppendOnly, h1, h2]
  cases hn : ((newS.getMap "status").getD .null).getArr "history" with
  | none => simp [hn]
  | some newH =>
      simp only [hn]
      by_cases hlen : newH.length < oldH.length
      · rw [if_pos hlen]
        constructor
        · intro hc; exact Except.noConfusion hc
        · rintro ⟨nh, hnh, hle, _⟩
          injection hnh with hnh
          subst hnh
          exfalso
          omega
      · rw [if_neg hlen]
        rw [checkHistoryEntries_ok_iff]
        constructor
        · rintro ⟨hle, hmap⟩
          exact ⟨newH, rfl, hle, hmap⟩
        · rintro ⟨nh, hnh, hle, hmap⟩
          injection hnh with hnh
          subst hnh
          exact ⟨hle, hmap⟩

/-- C3 witness: appending one entry to a one-entry history is admitted, via
the characterization at a concrete old and new object. -/
theorem C3_witness :
    histOldSession.getMap "status" = some histOldStatus ∧
    histOldStatus.getArr "history" = some [histEntryA] ∧
    ([histEntryA] : List GoVal) ≠ [] ∧
    (validateUpdate histOldSession histNewSession = .allowed ↔
      ∃ newH, ((histNewSession.getMap "status").getD .null).getArr "history" = some newH ∧
        ([histEntryA] : List GoVal).length ≤ newH.length ∧
        (newH.take ([histEntryA] : List GoVal).length).map GoVal.canonicalJson =
          ([histEntryA] : List GoVal).map GoVal.canonicalJson) :=
  ⟨by rfl, by rfl, by simp,
   C3_history_append_only histOldSession histNewSession histOldStatus [histEntryA]
     (by rfl) (by rfl) (by simp)⟩
